import Mathlib

/-!
Verification of the JSON-file-backed record store of the `servidor` REST
backend (`src/servidor/server/server.js`).  The server keeps three in-memory
arrays (`usuarios`, `publicaciones`, `likes`), mirrors each to a JSON file via
`readJsonFile` / `writeJsonFile`, and exposes CRUD route handlers over them.

The embedding below translates the route-handler bodies into pure Lean
functions over an explicit `ServerState`.  The filesystem is a finite map from
paths to file contents; a file's content is modelled at the level of parsed
JSON values (the node `JSON.stringify` / `JSON.parse` pair of the standard
library is the external collaborator: a stored `FileContent.json j` stands for
the text `JSON.stringify(j)`, and `FileContent.corrupt` stands for text that
`JSON.parse` rejects).  Environment effects that the handlers consult
(`bcrypt.hash` success, `Date.now()`, the multer-stored upload file, whether
`fs.unlinkSync` throws) are passed as explicit oracle arguments.
-/

/-- Parsed JSON values, covering the shapes this server stores (strings,
integer timestamps, arrays, objects with ordered string keys). -/
inductive Json where
  | str (s : String)
  | num (n : Nat)
  | arr (xs : List Json)
  | obj (fields : List (String × Json))

/-- Content of a file on disk: either text that parses to a JSON value,
or text that `JSON.parse` rejects. -/
inductive FileContent where
  | json (j : Json)
  | corrupt

/-- The filesystem: an association list from paths to file contents.
A path not in the list is an absent file. -/
def FS : Type := List (String × FileContent)

/-- Look a path up in the filesystem. -/
def getFile : FS → String → Option FileContent
  | [], _ => none
  | (q, c) :: rest, p => if q = p then some c else getFile rest p

/-- Write a file, replacing any previous content at that path. -/
def setFile : FS → String → FileContent → FS
  | [], p, c => [(p, c)]
  | (q, d) :: rest, p, c =>
      if q = p then (p, c) :: rest else (q, d) :: setFile rest p c

/-- `writeJsonFile` (server.js:59-70): serialize `data` and overwrite the
file.  The JS implementation catches and logs filesystem errors; the model
assumes the write reaches the disk. -/
def writeJsonFile (fs : FS) (filePath : String) (data : Json) : FS :=
  setFile fs filePath (.json data)

/-- `readJsonFile` (server.js:43-57): if the file is absent, create it
holding an empty array and return the empty array; if present and parseable,
return the parsed data; on parse failure, log and return the empty array.
Returns the data together with the (possibly updated) filesystem. -/
def readJsonFile (fs : FS) (filePath : String) : Json × FS :=
  match getFile fs filePath with
  | none => (Json.arr [], writeJsonFile fs filePath (Json.arr []))
  | some (.json j) => (j, fs)
  | some .corrupt => (Json.arr [], fs)

/-- A user record (`usuarios` array): `{ username, password }` where
`password` holds the bcrypt hash. -/
structure User where
  username : String
  password : String
deriving DecidableEq, Repr

/-- A post record (`publicaciones` array):
`{ imagePath, imageName, description, username, timestamp }`. -/
structure Publication where
  imagePath : String
  imageName : String
  description : String
  username : String
  timestamp : Nat
deriving DecidableEq, Repr

/-- A like record (`likes` array): `{ username, likedPublications }`, where
`likedPublications` holds snapshot copies of publication objects. -/
structure LikeEntry where
  username : String
  likedPublications : List Publication
deriving DecidableEq, Repr

/-- JSON form of a user record, as `JSON.stringify` sees it. -/
def User.toJson (u : User) : Json :=
  .obj [("username", .str u.username), ("password", .str u.password)]

/-- Interpretation of a JSON value back as a user record (the shape
`JSON.parse` returns for a record written by `User.toJson`). -/
def User.fromJson : Json → Option User
  | .obj [("username", .str u), ("password", .str p)] => some ⟨u, p⟩
  | _ => none

/-- JSON form of a post record. -/
def Publication.toJson (p : Publication) : Json :=
  .obj [("imagePath", .str p.imagePath), ("imageName", .str p.imageName),
        ("description", .str p.description), ("username", .str p.username),
        ("timestamp", .num p.timestamp)]

/-- Interpretation of a JSON value back as a post record. -/
def Publication.fromJson : Json → Option Publication
  | .obj [("imagePath", .str ip), ("imageName", .str iN),
          ("description", .str d), ("username", .str u),
          ("timestamp", .num t)] => some ⟨ip, iN, d, u, t⟩
  | _ => none

/-- Decode a list of JSON values elementwise; fail if any element fails. -/
def decodeList (f : Json → Option α) : List Json → Option (List α)
  | [] => some []
  | x :: xs =>
      match f x, decodeList f xs with
      | some a, some as => some (a :: as)
      | _, _ => none

/-- JSON form of a like record (its liked posts are stored as an array of
publication objects). -/
def LikeEntry.toJson (e : LikeEntry) : Json :=
  .obj [("username", .str e.username),
        ("likedPublications", .arr (e.likedPublications.map Publication.toJson))]

/-- Interpretation of a JSON value back as a like record. -/
def LikeEntry.fromJson : Json → Option LikeEntry
  | .obj [("username", .str u), ("likedPublications", .arr xs)] =>
      (decodeList Publication.fromJson xs).map (fun ps => ⟨u, ps⟩)
  | _ => none

/-- The `usuarios` array as the JSON document stored in its file. -/
def encodeUsers (us : List User) : Json := .arr (us.map User.toJson)

/-- The `publicaciones` array as the JSON document stored in its file. -/
def encodePublications (ps : List Publication) : Json :=
  .arr (ps.map Publication.toJson)

/-- The `likes` array as the JSON document stored in its file. -/
def encodeLikes (ls : List LikeEntry) : Json := .arr (ls.map LikeEntry.toJson)

/-- Reading a stored `usuarios` document back as records. -/
def decodeUsers : Json → Option (List User)
  | .arr xs => decodeList User.fromJson xs
  | _ => none

/-- Reading a stored `publicaciones` document back as records. -/
def decodePublications : Json → Option (List Publication)
  | .arr xs => decodeList Publication.fromJson xs
  | _ => none

/-- Reading a stored `likes` document back as records. -/
def decodeLikes : Json → Option (List LikeEntry)
  | .arr xs => decodeList LikeEntry.fromJson xs
  | _ => none

/-- Path of the users file (the environment-dependent data directory from
server.js:38 is abstracted to a fixed prefix; only distinctness of the three
paths matters). -/
def usuariosFilePath : String := "data/usuarios.json"

/-- Path of the posts file (server.js:39). -/
def publicacionesFilePath : String := "data/publicaciones.json"

/-- Path of the likes file (server.js:40). -/
def likesFilePath : String := "data/likes.json"

/-- The server's mutable state: the three in-memory arrays (server.js:73-75)
together with the filesystem holding their backing files. -/
structure ServerState where
  usuarios : List User
  publicaciones : List Publication
  likes : List LikeEntry
  files : FS

/-- A fresh deployment: empty arrays, no data files yet. -/
def initState : ServerState := { usuarios := [], publicaciones := [], likes := [], files := [] }

/-- Result of `POST /api/usuarios` (server.js:107-128). -/
inductive RegisterResult where
  | created
  | invalidInput
  | alreadyExists
  | internalFailure
deriving DecidableEq, Repr

/-- `POST /api/usuarios` (server.js:107-128).  `hashedOpt` is the outcome of
`await bcrypt.hash(password, 10)`: `some h` when hashing yields `h`, `none`
when it throws (the 500 path).  Missing body fields arrive as the empty
string, matching the falsiness test `!username || !password`. -/
def postUsuarios (s : ServerState) (username password : String)
    (hashedOpt : Option String) : RegisterResult × ServerState :=
  if username = "" ∨ password = "" then
    (.invalidInput, s)
  else if (s.usuarios.find? (fun u => u.username == username)).isSome then
    (.alreadyExists, s)
  else
    match hashedOpt with
    | none => (.internalFailure, s)
    | some hashedPassword =>
        let usuarios' := s.usuarios ++ [{ username := username, password := hashedPassword }]
        (.created,
          { s with usuarios := usuarios',
                   files := writeJsonFile s.files usuariosFilePath (encodeUsers usuarios') })

/-- Result of `POST /api/upload` (server.js:156-179). -/
inductive UploadResult where
  | created (p : Publication)
  | noFile
deriving DecidableEq, Repr

/-- Base URL prepended to stored image paths (server.js:163). -/
def baseUrl : String := "https://servidor-c1k2.onrender.com"

/-- `POST /api/upload` (server.js:156-179).  `file` is `req.file` as left by
multer: `some filename` for the stored file's generated name, `none` when no
file was uploaded.  `now` is `Date.now()`. -/
def postUpload (s : ServerState) (username description imageName : String)
    (file : Option String) (now : Nat) : UploadResult × ServerState :=
  match file with
  | none => (.noFile, s)
  | some filename =>
      let nuevaPublicacion : Publication :=
        { imagePath := baseUrl ++ "/uploads/" ++ filename,
          imageName := imageName, description := description,
          username := username, timestamp := now }
      let publicaciones' := s.publicaciones ++ [nuevaPublicacion]
      (.created nuevaPublicacion,
        { s with publicaciones := publicaciones',
                 files := writeJsonFile s.files publicacionesFilePath
                            (encodePublications publicaciones') })

/-- Result of `DELETE /api/publicaciones` (server.js:181-220). -/
inductive DeletePubResult where
  | deleted
  | notFound
  | internalFailure
deriving DecidableEq, Repr

/-- The composite-key test `pub.imagePath === publication.imagePath &&
pub.imageName === publication.imageName` used by the delete handlers. -/
def matchesKey (imagePath imageName : String) (p : Publication) : Bool :=
  p.imagePath == imagePath && p.imageName == imageName

/-- `DELETE /api/publicaciones` (server.js:181-220).  The request carries the
key fields of the publication to delete.  `unlinkOk` is whether deleting the
stored image file succeeds or is skipped because the file is absent (`true`),
or `fs.unlinkSync` throws (`false`, the 500 path, reached before any array
mutation).  On success the matching post is spliced out, every user's
`likedPublications` is filtered to drop records matching the key, and both
files are rewritten. -/
def deletePublicacion (s : ServerState) (imagePath imageName : String)
    (unlinkOk : Bool) : DeletePubResult × ServerState :=
  match s.publicaciones.findIdx? (matchesKey imagePath imageName) with
  | none => (.notFound, s)
  | some publicationIndex =>
      if unlinkOk then
        let publicaciones' := s.publicaciones.eraseIdx publicationIndex
        let likes' := s.likes.map (fun like =>
          { like with likedPublications := (like.likedPublications.filter
              (fun likePublication =>
                likePublication.imagePath != imagePath ||
                likePublication.imageName != imageName)) })
        (.deleted,
          { s with publicaciones := publicaciones', likes := likes',
                   files := writeJsonFile
                              (writeJsonFile s.files publicacionesFilePath
                                (encodePublications publicaciones'))
                              likesFilePath (encodeLikes likes') })
      else (.internalFailure, s)

/-- `GET /api/likes/:username` (server.js:223-232): `none` is the 404 "user
has no liked publications" response, `some ps` the 200 response body. -/
def getLikes (s : ServerState) (username : String) : Option (List Publication) :=
  (s.likes.find? (fun like => like.username == username)).map
    (fun userLikes => userLikes.likedPublications)

/-- Result of `POST /api/likes` (server.js:234-258). -/
inductive AddLikeResult where
  | added
  | alreadyLiked
deriving DecidableEq, Repr

/-- Apply `f` to the first element satisfying `p`, keeping the rest: the
functional rendering of the JS pattern of mutating the object returned by
`Array.prototype.find`. -/
def updateFirst (p : α → Bool) (f : α → α) : List α → List α
  | [] => []
  | x :: xs => if p x then f x :: xs else x :: updateFirst p f xs

/-- `POST /api/likes` (server.js:234-258): lazily create the user's entry,
reject a publication whose (imagePath, imageName) is already in the entry,
otherwise append the request's publication snapshot and persist. -/
def postLike (s : ServerState) (username : String) (publication : Publication) :
    AddLikeResult × ServerState :=
  match s.likes.find? (fun like => like.username == username) with
  | some userLikes =>
      if userLikes.likedPublications.any
          (matchesKey publication.imagePath publication.imageName) then
        (.alreadyLiked, s)
      else
        let likes' := updateFirst (fun like => like.username == username)
          (fun like =>
            { like with likedPublications := like.likedPublications ++ [publication] })
          s.likes
        (.added,
          { s with likes := likes',
                   files := writeJsonFile s.files likesFilePath (encodeLikes likes') })
  | none =>
      let likes' := s.likes ++ [{ username := username, likedPublications := [publication] }]
      (.added,
        { s with likes := likes',
                 files := writeJsonFile s.files likesFilePath (encodeLikes likes') })

/-- Result of `DELETE /api/likes` (server.js:260-281). -/
inductive RemoveLikeResult where
  | removed
  | notFoundUser
  | notFoundLike
deriving DecidableEq, Repr

/-- `DELETE /api/likes` (server.js:260-281): 404 if the user has no entry,
404 if the entry lacks a record matching the key, otherwise splice the first
matching record out and persist. -/
def deleteLike (s : ServerState) (username imagePath imageName : String) :
    RemoveLikeResult × ServerState :=
  match s.likes.find? (fun like => like.username == username) with
  | none => (.notFoundUser, s)
  | some userLikes =>
      match userLikes.likedPublications.findIdx? (matchesKey imagePath imageName) with
      | none => (.notFoundLike, s)
      | some publicationIndex =>
          let likes' := updateFirst (fun like => like.username == username)
            (fun like =>
              { like with likedPublications :=
                  like.likedPublications.eraseIdx publicationIndex })
            s.likes
          (.removed,
            { s with likes := likes',
                     files := writeJsonFile s.files likesFilePath (encodeLikes likes') })

/-- One mutating request to the server, with its environment oracles. -/
inductive Op where
  | registerOp (username password : String) (hashedOpt : Option String)
  | uploadOp (username description imageName : String) (file : Option String) (now : Nat)
  | deletePubOp (imagePath imageName : String) (unlinkOk : Bool)
  | addLikeOp (username : String) (publication : Publication)
  | removeLikeOp (username imagePath imageName : String)

/-- The state after handling one request (the response is discarded). -/
def applyOp (s : ServerState) : Op → ServerState
  | .registerOp u p h => (postUsuarios s u p h).2
  | .uploadOp u d iN f now => (postUpload s u d iN f now).2
  | .deletePubOp ip iN ok => (deletePublicacion s ip iN ok).2
  | .addLikeOp u pub => (postLike s u pub).2
  | .removeLikeOp u ip iN => (deleteLike s u ip iN).2

/-- The state after handling a sequence of requests in order. -/
def runOps (s : ServerState) (ops : List Op) : ServerState :=
  ops.foldl applyOp s

/-- The composite keys of the records in one user's liked list. -/
def likedKeys (e : LikeEntry) : List (String × String) :=
  e.likedPublications.map (fun p => (p.imagePath, p.imageName))

/-- The Like Index invariant: within each entry, no two liked-post records
share the composite (imagePath, imageName) key. -/
def likesInvariant (s : ServerState) : Prop :=
  ∀ e ∈ s.likes, (likedKeys e).Nodup

/-- How many records in one user's liked list match a composite key. -/
def countKey (e : LikeEntry) (imagePath imageName : String) : Nat :=
  e.likedPublications.countP (matchesKey imagePath imageName)

/-- A small populated state (one user, one post, one like) used to exercise
the error paths on concrete inputs. -/
def sampleState : ServerState :=
  { usuarios := [⟨"ana", "h"⟩],
    publicaciones := [⟨"p", "n", "d", "ana", 0⟩],
    likes := [⟨"ana", [⟨"p", "n", "d", "ana", 0⟩]⟩],
    files := [] }

/-- A state whose catalog holds two posts sharing the composite key
("p", "n"), used to exercise deletion under duplicate keys. -/
def dupState : ServerState :=
  { usuarios := [],
    publicaciones := [⟨"p", "n", "d", "ana", 0⟩, ⟨"p", "n", "e", "bob", 1⟩],
    likes := [⟨"ana", [⟨"p", "n", "d", "ana", 0⟩]⟩],
    files := [] }

/-! ## Filesystem and serialization lemmas -/

theorem getFile_setFile_same (fs : FS) (p : String) (c : FileContent) :
    getFile (setFile fs p c) p = some c := by
  induction fs with
  | nil => simp [setFile, getFile]
  | cons hd tl ih =>
      obtain ⟨q, d⟩ := hd
      by_cases hq : q = p
      · simp [setFile, hq, getFile]
      · simp [setFile, hq, getFile, ih]

theorem getFile_setFile_other (fs : FS) (p q : String) (c : FileContent)
    (hpq : q ≠ p) : getFile (setFile fs q c) p = getFile fs p := by
  induction fs with
  | nil => simp [setFile, getFile, hpq]
  | cons hd tl ih =>
      obtain ⟨r, d⟩ := hd
      by_cases hr : r = q
      · simp [setFile, hr, getFile, hpq]
      · by_cases hrp : r = p
        · have hpq' : p ≠ q := Ne.symm hpq
          simp [setFile, hrp, hpq', getFile]
        · simp [setFile, hr, getFile, hrp, ih]

theorem decodeList_map_eq_some (f : Json → Option α) (g : α → Json)
    (h : ∀ x, f (g x) = some x) (l : List α) :
    decodeList f (l.map g) = some l := by
  induction l with
  | nil => simp [decodeList]
  | cons a as ih => simp [decodeList, h, ih]

theorem user_fromJson_toJson (u : User) : User.fromJson (User.toJson u) = some u := rfl

theorem publication_fromJson_toJson (p : Publication) :
    Publication.fromJson (Publication.toJson p) = some p := rfl

theorem likeEntry_fromJson_toJson (e : LikeEntry) :
    LikeEntry.fromJson (LikeEntry.toJson e) = some e := by
  simp [LikeEntry.toJson, LikeEntry.fromJson,
    decodeList_map_eq_some Publication.fromJson Publication.toJson
      publication_fromJson_toJson]

theorem decodeUsers_encodeUsers (us : List User) :
    decodeUsers (encodeUsers us) = some us := by
  simp [decodeUsers, encodeUsers,
    decodeList_map_eq_some User.fromJson User.toJson user_fromJson_toJson]

theorem decodePublications_encodePublications (ps : List Publication) :
    decodePublications (encodePublications ps) = some ps := by
  simp [decodePublications, encodePublications,
    decodeList_map_eq_some Publication.fromJson Publication.toJson
      publication_fromJson_toJson]

theorem decodeLikes_encodeLikes (ls : List LikeEntry) :
    decodeLikes (encodeLikes ls) = some ls := by
  simp [decodeLikes, encodeLikes,
    decodeList_map_eq_some LikeEntry.fromJson LikeEntry.toJson
      likeEntry_fromJson_toJson]

theorem readJsonFile_writeJsonFile (fs : FS) (filePath : String) (j : Json) :
    readJsonFile (writeJsonFile fs filePath j) filePath =
      (j, writeJsonFile fs filePath j) := by
  simp [readJsonFile, writeJsonFile, getFile_setFile_same]

/-! ## C7 and C8 -/

/-- C7: for every file path, `readJsonFile` returns the empty sequence and
creates the file containing an empty sequence when the file is absent; parses
and returns its contents when present; and on parse failure of a present file
it returns the empty sequence without changing the file. -/
theorem readJsonFile_cases (fs : FS) (filePath : String) :
    (getFile fs filePath = none →
      readJsonFile fs filePath =
        (Json.arr [], writeJsonFile fs filePath (Json.arr [])) ∧
      getFile (readJsonFile fs filePath).2 filePath =
        some (.json (Json.arr []))) ∧
    (∀ j, getFile fs filePath = some (.json j) →
      readJsonFile fs filePath = (j, fs)) ∧
    (getFile fs filePath = some .corrupt →
      readJsonFile fs filePath = (Json.arr [], fs)) := by
  refine ⟨fun h => ?_, fun j h => ?_, fun h => ?_⟩
  · constructor
    · simp [readJsonFile, h]
    · simp [readJsonFile, h, writeJsonFile, getFile_setFile_same]
  · simp [readJsonFile, h]
  · simp [readJsonFile, h]

/-- C7 witness: the three cases of `readJsonFile_cases` at concrete
filesystems. -/
theorem readJsonFile_cases_witness :
    readJsonFile [] "data/usuarios.json" =
      (Json.arr [], writeJsonFile [] "data/usuarios.json" (Json.arr [])) ∧
    readJsonFile [("data/usuarios.json", .json (Json.str "x"))]
        "data/usuarios.json" =
      (Json.str "x", [("data/usuarios.json", .json (Json.str "x"))]) ∧
    readJsonFile [("data/usuarios.json", .corrupt)] "data/usuarios.json" =
      (Json.arr [], [("data/usuarios.json", .corrupt)]) := by
  refine ⟨((readJsonFile_cases [] "data/usuarios.json").1 rfl).1, ?_, ?_⟩
  · exact (readJsonFile_cases [("data/usuarios.json", .json (Json.str "x"))]
      "data/usuarios.json").2.1 (Json.str "x") (by simp [getFile])
  · exact (readJsonFile_cases [("data/usuarios.json", .corrupt)]
      "data/usuarios.json").2.2 (by simp [getFile])

/-- C8: persisting a sequence of records of any of the three stores with
`writeJsonFile` and reloading the file with `readJsonFile` yields the
persisted JSON document back, and interpreting that document as records
yields a sequence equal to the one persisted. -/
theorem persist_load_roundtrip (fs : FS) (filePath : String)
    (us : List User) (ps : List Publication) (ls : List LikeEntry) :
    ((readJsonFile (writeJsonFile fs filePath (encodeUsers us)) filePath).1 =
        encodeUsers us ∧
      decodeUsers (encodeUsers us) = some us) ∧
    ((readJsonFile (writeJsonFile fs filePath (encodePublications ps))
        filePath).1 = encodePublications ps ∧
      decodePublications (encodePublications ps) = some ps) ∧
    ((readJsonFile (writeJsonFile fs filePath (encodeLikes ls)) filePath).1 =
        encodeLikes ls ∧
      decodeLikes (encodeLikes ls) = some ls) :=
  ⟨⟨by rw [readJsonFile_writeJsonFile], decodeUsers_encodeUsers us⟩,
   ⟨by rw [readJsonFile_writeJsonFile],
    decodePublications_encodePublications ps⟩,
   ⟨by rw [readJsonFile_writeJsonFile], decodeLikes_encodeLikes ls⟩⟩

/-! ## Composite-key and updateFirst lemmas -/

theorem matchesKey_iff (ip iN : String) (p : Publication) :
    matchesKey ip iN p = true ↔ (p.imagePath, p.imageName) = (ip, iN) := by
  simp [matchesKey, Prod.ext_iff]

theorem mem_updateFirst (p : α → Bool) (f : α → α) (l : List α) (P : α → Prop)
    (hl : ∀ x ∈ l, P x) (hf : ∀ x, l.find? p = some x → P (f x)) :
    ∀ y ∈ updateFirst p f l, P y := by
  induction l with
  | nil => intro y hy; simp [updateFirst] at hy
  | cons a as ih =>
      intro y hy
      by_cases hpa : p a = true
      · simp only [updateFirst, if_pos hpa] at hy
        rcases List.mem_cons.mp hy with h | h
        · exact h ▸ hf a (List.find?_cons_of_pos as hpa)
        · exact hl y (List.mem_cons_of_mem a h)
      · simp only [updateFirst, if_neg hpa] at hy
        rcases List.mem_cons.mp hy with h | h
        · exact h ▸ hl a (List.mem_cons_self a as)
        · exact ih (fun x hx => hl x (List.mem_cons_of_mem a hx))
            (fun x hx => hf x (by rw [List.find?_cons_of_neg as hpa]; exact hx))
            y h

theorem countP_matchesKey_le_one (ip iN : String) (l : List Publication)
    (h : (l.map (fun p => (p.imagePath, p.imageName))).Nodup) :
    l.countP (matchesKey ip iN) ≤ 1 := by
  induction l with
  | nil => simp
  | cons a as ih =>
      simp only [List.map_cons, List.nodup_cons] at h
      by_cases ha : matchesKey ip iN a = true
      · rw [List.countP_cons_of_pos _ _ ha]
        have hkey : (a.imagePath, a.imageName) = (ip, iN) := (matchesKey_iff ip iN a).mp ha
        have hzero : as.countP (matchesKey ip iN) = 0 := by
          rw [List.countP_eq_zero]
          intro x hx hmx
          have hx' : (x.imagePath, x.imageName) = (ip, iN) := (matchesKey_iff ip iN x).mp hmx
          exact h.1 (List.mem_map.mpr ⟨x, hx, hx'.trans hkey.symm⟩)
        omega
      · rw [List.countP_cons_of_neg _ _ ha]
        exact ih h.2

/-! ## The like-index invariant is preserved by every request -/

theorem postUsuarios_likes (s : ServerState) (u p : String) (h : Option String) :
    (postUsuarios s u p h).2.likes = s.likes := by
  unfold postUsuarios
  split
  · rfl
  · split
    · rfl
    · cases h <;> rfl

theorem postUpload_likes (s : ServerState) (u d iN : String) (f : Option String)
    (now : Nat) : (postUpload s u d iN f now).2.likes = s.likes := by
  cases f <;> rfl

theorem likesInvariant_postLike (s : ServerState) (u : String) (pub : Publication)
    (h : likesInvariant s) : likesInvariant (postLike s u pub).2 := by
  unfold postLike
  cases hfind : s.likes.find? (fun like => like.username == u) with
  | none =>
      intro e he
      simp only at he
      rcases List.mem_append.mp he with he | he
      · exact h e he
      · have : e = { username := u, likedPublications := [pub] } := by simpa using he
        subst this
        simp [likedKeys]
  | some userLikes =>
      by_cases hdup :
          userLikes.likedPublications.any
            (matchesKey pub.imagePath pub.imageName) = true
      · simp only [if_pos hdup]
        exact h
      · simp only [if_neg hdup]
        intro e he
        refine mem_updateFirst _ _ _ (fun x => (likedKeys x).Nodup) h ?_ e he
        intro x hx
        rw [hfind] at hx
        injection hx with hx
        subst hx
        have hmem : userLikes ∈ s.likes := List.mem_of_find?_eq_some hfind
        have hany : ∀ q ∈ userLikes.likedPublications,
            ¬ matchesKey pub.imagePath pub.imageName q = true := by
          intro q hq
          exact fun hmq => hdup (List.any_eq_true.mpr ⟨q, hq, hmq⟩)
        have hnot : (pub.imagePath, pub.imageName) ∉
            userLikes.likedPublications.map (fun p => (p.imagePath, p.imageName)) := by
          intro hmemk
          rcases List.mem_map.mp hmemk with ⟨q, hq, hkq⟩
          exact hany q hq ((matchesKey_iff pub.imagePath pub.imageName q).mpr hkq)
        have hnd := h userLikes hmem
        simp only [likedKeys] at hnd ⊢
        simp only [List.map_append, List.map_cons, List.map_nil]
        rw [List.nodup_append]
        exact ⟨hnd, List.nodup_singleton _, by
          intro k hk hk'
          simp only [List.mem_singleton] at hk'
          exact hnot (hk' ▸ hk)⟩

theorem likesInvariant_deleteLike (s : ServerState) (u ip iN : String)
    (h : likesInvariant s) : likesInvariant (deleteLike s u ip iN).2 := by
  unfold deleteLike
  split
  · exact h
  · split
    · exact h
    · rename_i publicationIndex hidx
      intro e he
      simp only at he
      refine mem_updateFirst _ _ _ (fun x => (likedKeys x).Nodup) h ?_ e he
      intro x hx
      have hnd := h x (List.mem_of_find?_eq_some hx)
      simp only [likedKeys] at hnd ⊢
      exact hnd.sublist
        (List.Sublist.map _ (List.eraseIdx_sublist _ publicationIndex))

theorem likesInvariant_deletePublicacion (s : ServerState) (ip iN : String)
    (ok : Bool) (h : likesInvariant s) :
    likesInvariant (deletePublicacion s ip iN ok).2 := by
  unfold deletePublicacion
  cases hfind : s.publicaciones.findIdx? (matchesKey ip iN) with
  | none => exact h
  | some publicationIndex =>
      cases ok with
      | false => exact h
      | true =>
          intro e he
          simp only [if_pos rfl] at he
          rcases List.mem_map.mp he with ⟨e₀, he₀, rfl⟩
          have hnd := h e₀ he₀
          simp only [likedKeys] at hnd ⊢
          exact hnd.sublist (List.Sublist.map _ (List.filter_sublist _))

theorem likesInvariant_applyOp (s : ServerState) (op : Op)
    (h : likesInvariant s) : likesInvariant (applyOp s op) := by
  cases op with
  | registerOp u p hOpt =>
      intro e he
      rw [applyOp, postUsuarios_likes] at he
      exact h e he
  | uploadOp u d iN f now =>
      intro e he
      rw [applyOp, postUpload_likes] at he
      exact h e he
  | deletePubOp ip iN ok => exact likesInvariant_deletePublicacion s ip iN ok h
  | addLikeOp u pub => exact likesInvariant_postLike s u pub h
  | removeLikeOp u ip iN => exact likesInvariant_deleteLike s u ip iN h

theorem likesInvariant_runOps (s : ServerState) (ops : List Op)
    (h : likesInvariant s) : likesInvariant (runOps s ops) := by
  induction ops generalizing s with
  | nil => exact h
  | cons op ops ih => exact ih (applyOp s op) (likesInvariant_applyOp s op h)

/-! ## C2, C5, C6 -/

/-- C2: in every like-store state reachable by any sequence of requests from
the empty state, no two liked-post records within one entry share the
composite (imagePath, imageName) key; and when a record with the composite
key of `pub` is already present in a user's entry, `POST /api/likes` fails
AlreadyLiked, leaves the state unchanged, and the count of records for that
key in the entry is 1. -/
theorem likeIndex_no_duplicate_keys (ops : List Op) (u : String) (pub : Publication) :
    likesInvariant (runOps initState ops) ∧
    (∀ e, (runOps initState ops).likes.find? (fun like => like.username == u) = some e →
      e.likedPublications.any (matchesKey pub.imagePath pub.imageName) = true →
      postLike (runOps initState ops) u pub = (.alreadyLiked, runOps initState ops) ∧
      countKey e pub.imagePath pub.imageName = 1) := by
  have hinv : likesInvariant (runOps initState ops) :=
    likesInvariant_runOps initState ops (by intro e he; simp [initState] at he)
  refine ⟨hinv, ?_⟩
  intro e hfind hdup
  constructor
  · simp [postLike, hfind, hdup]
  · have hmem := List.mem_of_find?_eq_some hfind
    have hnd := hinv e hmem
    rcases List.any_eq_true.mp hdup with ⟨q, hq, hmq⟩
    have hpos : 0 < e.likedPublications.countP (matchesKey pub.imagePath pub.imageName) :=
      List.countP_pos_iff.mpr ⟨q, hq, hmq⟩
    simp only [likedKeys] at hnd
    have hle := countP_matchesKey_le_one pub.imagePath pub.imageName
      e.likedPublications hnd
    unfold countKey
    omega

/-- C2 witness: after "ana" likes a post once, liking it again fails
AlreadyLiked, changes nothing, and the entry holds the key exactly once. -/
theorem likeIndex_no_duplicate_keys_witness :
    postLike (runOps initState [Op.addLikeOp "ana" ⟨"ip", "img", "d", "ana", 0⟩])
        "ana" ⟨"ip", "img", "d", "ana", 0⟩ =
      (.alreadyLiked,
        runOps initState [Op.addLikeOp "ana" ⟨"ip", "img", "d", "ana", 0⟩]) ∧
    countKey ⟨"ana", [⟨"ip", "img", "d", "ana", 0⟩]⟩ "ip" "img" = 1 :=
  (likeIndex_no_duplicate_keys [Op.addLikeOp "ana" ⟨"ip", "img", "d", "ana", 0⟩]
      "ana" ⟨"ip", "img", "d", "ana", 0⟩).2
    ⟨"ana", [⟨"ip", "img", "d", "ana", 0⟩]⟩ (by decide) (by decide)

/-- C5: with a stored image file, `POST /api/upload` always succeeds,
appending exactly one record whose timestamp is the current time, persisting
the catalog, and returning the created post; with no file it fails and the
whole state is unchanged. -/
theorem postUpload_spec (s : ServerState)
    (username description imageName filename : String) (now : Nat) :
    (∃ p : Publication,
      postUpload s username description imageName (some filename) now =
        (.created p,
          { s with publicaciones := s.publicaciones ++ [p],
                   files := writeJsonFile s.files publicacionesFilePath
                              (encodePublications (s.publicaciones ++ [p])) }) ∧
      p.timestamp = now) ∧
    postUpload s username description imageName none now = (.noFile, s) :=
  ⟨⟨{ imagePath := baseUrl ++ "/uploads/" ++ filename, imageName := imageName,
      description := description, username := username, timestamp := now },
    rfl, rfl⟩, rfl⟩

/-- C6: with an empty (or missing) username or password,
`POST /api/usuarios` fails InvalidInput before the duplicate check or the
hashing oracle can matter — for every store state and every hash outcome the
result is InvalidInput and the state, files included, is unchanged. -/
theorem postUsuarios_invalid (s : ServerState) (username password : String)
    (hashedOpt : Option String) (h : username = "" ∨ password = "") :
    postUsuarios s username password hashedOpt = (.invalidInput, s) := by
  unfold postUsuarios
  rw [if_pos h]

/-- C6 witness: registering "ana" with an empty password fails InvalidInput
and changes nothing, even though "ana" already exists and hashing would
fail. -/
theorem postUsuarios_invalid_witness :
    ("ana" = "" ∨ "" = "") ∧
    postUsuarios { usuarios := [{ username := "ana", password := "h" }],
                   publicaciones := [], likes := [], files := [] } "ana" "" none =
      (.invalidInput,
        { usuarios := [{ username := "ana", password := "h" }],
          publicaciones := [], likes := [], files := [] }) :=
  ⟨Or.inr rfl, postUsuarios_invalid _ "ana" "" none (Or.inr rfl)⟩

/-! ## C3 -/

/-- C3 counterexample: "registering the same username twice with any
passwords" fails for empty passwords — both calls fail InvalidInput (not
AlreadyExists) and zero records are stored for the username. -/
theorem register_twice_counterexample :
    (postUsuarios initState "ana" "" (some "h1")).1 = .invalidInput ∧
    (postUsuarios (postUsuarios initState "ana" "" (some "h1")).2 "ana" ""
        (some "h2")).1 ≠ .alreadyExists ∧
    ((postUsuarios (postUsuarios initState "ana" "" (some "h1")).2 "ana" ""
        (some "h2")).2.usuarios.filter (fun u => u.username == "ana")).length = 0 := by
  decide

/-- C3 (amended): for every nonempty username and nonempty passwords, when
the first call's hashing succeeds, registering the same username twice from
any state not containing it yields exactly one stored record for it; the
second call fails AlreadyExists (under case-sensitive exact match) and
leaves the whole state unchanged. -/
theorem register_twice (s : ServerState) (username p1 p2 h1 : String)
    (hashedOpt2 : Option String) (hu : username ≠ "") (hp1 : p1 ≠ "")
    (hp2 : p2 ≠ "") (habsent : ∀ u ∈ s.usuarios, u.username ≠ username) :
    (postUsuarios s username p1 (some h1)).1 = .created ∧
    postUsuarios (postUsuarios s username p1 (some h1)).2 username p2 hashedOpt2 =
      (.alreadyExists, (postUsuarios s username p1 (some h1)).2) ∧
    ((postUsuarios s username p1 (some h1)).2.usuarios.filter
      (fun u => u.username == username)).length = 1 := by
  have hfind : s.usuarios.find? (fun u => u.username == username) = none :=
    List.find?_eq_none.mpr (fun u hu' => by simpa using habsent u hu')
  have hcond1 : ¬(username = "" ∨ p1 = "") := by
    rintro (h | h)
    · exact hu h
    · exact hp1 h
  have hcond2 : ¬(username = "" ∨ p2 = "") := by
    rintro (h | h)
    · exact hu h
    · exact hp2 h
  have hstep : postUsuarios s username p1 (some h1) =
      (.created,
        { s with usuarios := s.usuarios ++ [⟨username, h1⟩],
                 files := writeJsonFile s.files usuariosFilePath
                            (encodeUsers (s.usuarios ++ [⟨username, h1⟩])) }) := by
    unfold postUsuarios
    rw [if_neg hcond1, hfind]
    rfl
  have hfind2 : (s.usuarios ++ [(⟨username, h1⟩ : User)]).find?
      (fun u => u.username == username) = some ⟨username, h1⟩ := by
    rw [List.find?_append, hfind, Option.none_or]
    exact List.find?_cons_of_pos _ (by simp)
  refine ⟨by rw [hstep], ?_, ?_⟩
  · rw [hstep]
    unfold postUsuarios
    rw [if_neg hcond2]
    simp [hfind2]
  · rw [hstep]
    simp only [List.filter_append]
    rw [List.filter_eq_nil.mpr (fun u hu' => by simpa using habsent u hu')]
    simp

/-- C3 witness: registering "ana" twice from the fresh state with nonempty
passwords. -/
theorem register_twice_witness :
    (postUsuarios initState "ana" "secret" (some "hash")).1 = .created ∧
    postUsuarios (postUsuarios initState "ana" "secret" (some "hash")).2 "ana"
        "other" (some "h2") =
      (.alreadyExists, (postUsuarios initState "ana" "secret" (some "hash")).2) ∧
    ((postUsuarios initState "ana" "secret" (some "hash")).2.usuarios.filter
      (fun u => u.username == "ana")).length = 1 :=
  register_twice initState "ana" "secret" "other" "hash" (some "h2")
    (by decide) (by decide) (by decide) (by decide)

/-! ## C4 -/

theorem updateFirst_append_right (p : α → Bool) (f : α → α) (l₁ l₂ : List α)
    (h : ∀ x ∈ l₁, ¬ p x = true) :
    updateFirst p f (l₁ ++ l₂) = l₁ ++ updateFirst p f l₂ := by
  induction l₁ with
  | nil => rfl
  | cons a as ih =>
      simp only [List.cons_append, updateFirst,
        if_neg (h a (List.mem_cons_self a as))]
      exact congrArg _ (ih (fun x hx => h x (List.mem_cons_of_mem a hx)))

/-- C4 counterexample: after "ana" likes a post and then removes the like,
her entry remains (empty) and `GET /api/likes/ana` succeeds with the empty
list, whereas for a user who never liked anything it fails NotFound — the
two states are distinguished, contrary to the claim. -/
theorem getLikes_empty_entry_counterexample :
    getLikes (deleteLike (postLike initState "ana" ⟨"ip", "img", "d", "ana", 0⟩).2
        "ana" "ip" "img").2 "ana" = some [] ∧
    getLikes initState "ana" = none := by
  decide

/-- C4 (amended): `GET /api/likes/:username` fails NotFound exactly when no
like entry exists for the username; an empty-but-existing entry IS
distinguished from a never-existing one — starting from a state with no
entry for the user, adding a like and then removing it leaves an empty entry
and the listing succeeds with the empty sequence. -/
theorem getLikes_spec (s : ServerState) (username : String)
    (publication : Publication) :
    (getLikes s username = none ↔
      s.likes.find? (fun like => like.username == username) = none) ∧
    (s.likes.find? (fun like => like.username == username) = none →
      getLikes (deleteLike (postLike s username publication).2 username
          publication.imagePath publication.imageName).2 username = some []) := by
  constructor
  · simp [getLikes]
  · intro hnone
    have hpre : ∀ x ∈ s.likes, ¬ (x.username == username) = true :=
      List.find?_eq_none.mp hnone
    have h1 : (postLike s username publication).2 =
        { s with likes := s.likes ++ [⟨username, [publication]⟩],
                 files := writeJsonFile s.files likesFilePath
                            (encodeLikes (s.likes ++ [⟨username, [publication]⟩])) } := by
      unfold postLike
      rw [hnone]
    rw [h1]
    have hfind1 : ((s.likes ++ [(⟨username, [publication]⟩ : LikeEntry)]).find?
        (fun like => like.username == username)) = some ⟨username, [publication]⟩ := by
      rw [List.find?_append, hnone, Option.none_or]
      exact List.find?_cons_of_pos _ (by simp)
    have hidx : ([publication].findIdx?
        (matchesKey publication.imagePath publication.imageName)) = some 0 := by
      simp [List.findIdx?_cons, matchesKey]
    have h2 : (deleteLike
        { s with likes := s.likes ++ [⟨username, [publication]⟩],
                 files := writeJsonFile s.files likesFilePath
                            (encodeLikes (s.likes ++ [⟨username, [publication]⟩])) }
        username publication.imagePath publication.imageName).2.likes =
        s.likes ++ [⟨username, []⟩] := by
      unfold deleteLike
      simp only [hfind1, hidx]
      simp only [updateFirst_append_right _ _ _ _ hpre]
      simp [updateFirst]
    rw [getLikes, h2]
    rw [List.find?_append, hnone, Option.none_or]
    rw [List.find?_cons_of_pos _ (by simp)]
    rfl

/-- C4 witness: the amended behavior at a concrete fresh state. -/
theorem getLikes_spec_witness :
    (getLikes initState "ana" = none ↔
      (initState.likes.find? (fun like => like.username == "ana")) = none) ∧
    getLikes (deleteLike (postLike initState "ana" ⟨"pp", "nn", "dd", "ana", 5⟩).2
        "ana" "pp" "nn").2 "ana" = some [] :=
  ⟨(getLikes_spec initState "ana" ⟨"pp", "nn", "dd", "ana", 5⟩).1,
   (getLikes_spec initState "ana" ⟨"pp", "nn", "dd", "ana", 5⟩).2 (by decide)⟩

/-! ## C10 -/

/-- C10: whenever a mutating request returns an error result (InvalidInput,
AlreadyExists, InternalFailure, NotFound, AlreadyLiked, user/like NotFound,
or a missing upload file), the in-memory arrays and the backing files are
exactly as they were before the call — no error path appends, removes, or
persists a record. -/
theorem error_paths_leave_state_unchanged (s : ServerState) :
    (∀ u p h, (postUsuarios s u p h).1 ≠ .created → (postUsuarios s u p h).2 = s) ∧
    (∀ u d iN now, (postUpload s u d iN none now).2 = s) ∧
    (∀ ip iN ok, (deletePublicacion s ip iN ok).1 ≠ .deleted →
      (deletePublicacion s ip iN ok).2 = s) ∧
    (∀ u pub, (postLike s u pub).1 = .alreadyLiked → (postLike s u pub).2 = s) ∧
    (∀ u ip iN, (deleteLike s u ip iN).1 ≠ .removed → (deleteLike s u ip iN).2 = s) := by
  refine ⟨?_, ?_, ?_, ?_, ?_⟩
  · intro u p h
    unfold postUsuarios
    split
    · intro _; rfl
    · split
      · intro _; rfl
      · cases h with
        | none => intro _; rfl
        | some hp => intro hne; exact absurd rfl hne
  · intro u d iN now
    rfl
  · intro ip iN ok
    unfold deletePublicacion
    split
    · intro _; rfl
    · cases ok with
      | false => intro _; rfl
      | true => intro hne; exact absurd rfl hne
  · intro u pub
    unfold postLike
    split
    · split
      · intro _; rfl
      · intro hcontra; exact AddLikeResult.noConfusion hcontra
    · intro hcontra; exact AddLikeResult.noConfusion hcontra
  · intro u ip iN
    unfold deleteLike
    split
    · intro _; rfl
    · split
      · intro _; rfl
      · intro hne; exact absurd rfl hne

/-- C10 witness: each error path at a concrete populated state — duplicate
username, missing upload file, deleting an absent post, duplicate like, and
removing a like of an unknown user — leaves that state intact. -/
theorem error_paths_witness :
    (postUsuarios sampleState "ana" "pw" (some "h2")).2 = sampleState ∧
    (postUpload sampleState "u" "d" "n" none 3).2 = sampleState ∧
    (deletePublicacion sampleState "zz" "n" true).2 = sampleState ∧
    (postLike sampleState "ana" ⟨"p", "n", "d", "ana", 0⟩).2 = sampleState ∧
    (deleteLike sampleState "bob" "p" "n").2 = sampleState :=
  ⟨(error_paths_leave_state_unchanged sampleState).1 "ana" "pw" (some "h2")
      (by decide),
   (error_paths_leave_state_unchanged sampleState).2.1 "u" "d" "n" 3,
   (error_paths_leave_state_unchanged sampleState).2.2.1 "zz" "n" true
      (by decide),
   (error_paths_leave_state_unchanged sampleState).2.2.2.1 "ana"
      ⟨"p", "n", "d", "ana", 0⟩ (by decide),
   (error_paths_leave_state_unchanged sampleState).2.2.2.2 "bob" "p" "n"
      (by decide)⟩

/-! ## Delete-post lemmas (C1, C9) -/

theorem findIdx?_append_cons_aux (p : α → Bool) (l₁ l₂ : List α) (x : α)
    (h₁ : ∀ y ∈ l₁, p y = false) (hx : p x = true) :
    ∀ i, List.findIdx? p (l₁ ++ x :: l₂) i = some (i + l₁.length) := by
  induction l₁ with
  | nil => intro i; simp [List.findIdx?_cons, hx]
  | cons a as ih =>
      intro i
      have ha : p a = false := h₁ a (List.mem_cons_self a as)
      simp only [List.cons_append, List.findIdx?_cons, ha]
      rw [if_neg (by simp)]
      rw [ih (fun y hy => h₁ y (List.mem_cons_of_mem a hy)) (i + 1)]
      congr 1
      simp only [List.length_cons]
      omega

theorem eraseIdx_append_length (l₁ l₂ : List α) (x : α) :
    (l₁ ++ x :: l₂).eraseIdx l₁.length = l₁ ++ l₂ := by
  induction l₁ with
  | nil => simp
  | cons a as ih => simp [List.eraseIdx_cons_succ, ih]

theorem matchesKey_eq_false_of_keep (ip iN : String) (lp : Publication)
    (h : (lp.imagePath != ip || lp.imageName != iN) = true) :
    matchesKey ip iN lp = false := by
  simp only [Bool.or_eq_true, bne_iff_ne, ne_eq] at h
  rcases h with h | h <;> simp [matchesKey, h]

theorem cascade_removes_key (ip iN : String) (ls : List LikeEntry) :
    ∀ e ∈ ls.map (fun like =>
      { like with likedPublications := (like.likedPublications.filter
          (fun lp => lp.imagePath != ip || lp.imageName != iN)) }),
      ∀ lp ∈ e.likedPublications, matchesKey ip iN lp = false := by
  intro e he lp hlp
  rcases List.mem_map.mp he with ⟨e₀, _, rfl⟩
  exact matchesKey_eq_false_of_keep ip iN lp (List.mem_filter.mp hlp).2

theorem deletePublicacion_found (s : ServerState) (ip iN : String)
    (l₁ l₂ : List Publication) (p : Publication)
    (hsplit : s.publicaciones = l₁ ++ p :: l₂)
    (hp : matchesKey ip iN p = true)
    (h₁ : ∀ q ∈ l₁, matchesKey ip iN q = false) :
    deletePublicacion s ip iN true =
      (.deleted,
        { s with
            publicaciones := l₁ ++ l₂,
            likes := s.likes.map (fun like =>
              { like with likedPublications := (like.likedPublications.filter
                  (fun lp => lp.imagePath != ip || lp.imageName != iN)) }),
            files := writeJsonFile
                       (writeJsonFile s.files publicacionesFilePath
                         (encodePublications (l₁ ++ l₂)))
                       likesFilePath
                       (encodeLikes (s.likes.map (fun like =>
                         { like with likedPublications :=
                             (like.likedPublications.filter
                               (fun lp =>
                                 lp.imagePath != ip ||
                                 lp.imageName != iN)) }))) }) := by
  have hidx : s.publicaciones.findIdx? (matchesKey ip iN) = some l₁.length := by
    rw [hsplit]
    simpa using findIdx?_append_cons_aux (matchesKey ip iN) l₁ l₂ p h₁ hp 0
  have herase : s.publicaciones.eraseIdx l₁.length = l₁ ++ l₂ := by
    rw [hsplit]; exact eraseIdx_append_length l₁ l₂ p
  unfold deletePublicacion
  rw [hidx]
  simp only [if_pos rfl]
  rw [hsplit, eraseIdx_append_length l₁ l₂ p]
  simp

/-! ## C1 and C9 -/

/-- C1 counterexample: two uploads sharing the stored filename, image name,
and timestamp create two identical catalog records; deleting by the
composite key succeeds but the post is still present in the catalog
afterwards, so deletion does not remove every post p with that key. -/
theorem delete_duplicate_counterexample :
    (deletePublicacion
        (postUpload (postUpload initState "ana" "d" "a.png" (some "f.png") 7).2
          "ana" "d" "a.png" (some "f.png") 7).2
        (baseUrl ++ "/uploads/f.png") "a.png" true).1 = .deleted ∧
    (⟨baseUrl ++ "/uploads/f.png", "a.png", "d", "ana", 7⟩ : Publication) ∈
      (deletePublicacion
        (postUpload (postUpload initState "ana" "d" "a.png" (some "f.png") 7).2
          "ana" "d" "a.png" (some "f.png") 7).2
        (baseUrl ++ "/uploads/f.png") "a.png" true).2.publicaciones := by
  decide

/-- C1 (amended): deleting a post by its composite key, when exactly one
catalog record matches that key, removes it from the catalog, removes every
matching liked-post record from every user's entry (also as observed through
`GET /api/likes`), and persists both stores to their files; when no record
matches, the request fails NotFound and the state is unchanged. -/
theorem deletePublicacion_cascade (s : ServerState) (ip iN : String)
    (l₁ l₂ : List Publication) (p : Publication)
    (hsplit : s.publicaciones = l₁ ++ p :: l₂)
    (hp : matchesKey ip iN p = true)
    (h₁ : ∀ q ∈ l₁, matchesKey ip iN q = false)
    (h₂ : ∀ q ∈ l₂, matchesKey ip iN q = false) :
    (deletePublicacion s ip iN true).1 = .deleted ∧
    (deletePublicacion s ip iN true).2.publicaciones = l₁ ++ l₂ ∧
    p ∉ (deletePublicacion s ip iN true).2.publicaciones ∧
    (∀ e ∈ (deletePublicacion s ip iN true).2.likes,
      ∀ lp ∈ e.likedPublications, matchesKey ip iN lp = false) ∧
    (∀ u ps, getLikes (deletePublicacion s ip iN true).2 u = some ps →
      ∀ lp ∈ ps, matchesKey ip iN lp = false) ∧
    getFile (deletePublicacion s ip iN true).2.files publicacionesFilePath =
      some (.json (encodePublications (l₁ ++ l₂))) ∧
    getFile (deletePublicacion s ip iN true).2.files likesFilePath =
      some (.json (encodeLikes (deletePublicacion s ip iN true).2.likes)) ∧
    (∀ ip' iN', s.publicaciones.findIdx? (matchesKey ip' iN') = none →
      deletePublicacion s ip' iN' true = (.notFound, s)) := by
  have hdel := deletePublicacion_found s ip iN l₁ l₂ p hsplit hp h₁
  refine ⟨by rw [hdel], by rw [hdel], ?_, ?_, ?_, ?_, ?_, ?_⟩
  · rw [hdel]
    intro hmem
    have hfalse : matchesKey ip iN p = false := by
      rcases List.mem_append.mp hmem with h | h
      · exact h₁ p h
      · exact h₂ p h
    rw [hp] at hfalse
    cases hfalse
  · rw [hdel]
    exact cascade_removes_key ip iN s.likes
  · intro u ps hps lp hlp
    rw [hdel] at hps
    unfold getLikes at hps
    rcases Option.map_eq_some'.mp hps with ⟨e, hfind, hcast⟩
    subst hcast
    exact cascade_removes_key ip iN s.likes e
      (List.mem_of_find?_eq_some hfind) lp hlp
  · rw [hdel]
    simp only [writeJsonFile]
    rw [getFile_setFile_other _ _ _ _ (by decide), getFile_setFile_same]
  · rw [hdel]
    simp only [writeJsonFile]
    rw [getFile_setFile_same]
  · intro ip' iN' hnone
    unfold deletePublicacion
    rw [hnone]

/-- C1 witness: deleting the only post of `sampleState` by its key removes
it, and the like store is persisted alongside the post store. -/
theorem deletePublicacion_cascade_witness :
    (deletePublicacion sampleState "p" "n" true).1 = .deleted ∧
    (deletePublicacion sampleState "p" "n" true).2.publicaciones = [] ∧
    getFile (deletePublicacion sampleState "p" "n" true).2.files likesFilePath =
      some (.json (encodeLikes (deletePublicacion sampleState "p" "n" true).2.likes)) := by
  have h := deletePublicacion_cascade sampleState "p" "n" [] []
    ⟨"p", "n", "d", "ana", 0⟩ rfl (by decide) (by decide) (by decide)
  exact ⟨h.1, h.2.1, h.2.2.2.2.2.2.1⟩

/-- C9: when two or more catalog records share the composite key, deleting
by that key removes exactly one record — the earliest-inserted match — all
later matching records remain in the catalog, and the cascade still removes
every matching liked-post record from every user. -/
theorem deletePublicacion_duplicate_keys (s : ServerState) (ip iN : String)
    (l₁ l₂ : List Publication) (p : Publication)
    (hsplit : s.publicaciones = l₁ ++ p :: l₂)
    (hp : matchesKey ip iN p = true)
    (h₁ : ∀ q ∈ l₁, matchesKey ip iN q = false)
    (hdup : ∃ q ∈ l₂, matchesKey ip iN q = true) :
    (deletePublicacion s ip iN true).1 = .deleted ∧
    (deletePublicacion s ip iN true).2.publicaciones = l₁ ++ l₂ ∧
    (deletePublicacion s ip iN true).2.publicaciones.length + 1 =
      s.publicaciones.length ∧
    (∀ q ∈ l₂, q ∈ (deletePublicacion s ip iN true).2.publicaciones) ∧
    (∃ q ∈ (deletePublicacion s ip iN true).2.publicaciones,
      matchesKey ip iN q = true) ∧
    (∀ e ∈ (deletePublicacion s ip iN true).2.likes,
      ∀ lp ∈ e.likedPublications, matchesKey ip iN lp = false) := by
  have hdel := deletePublicacion_found s ip iN l₁ l₂ p hsplit hp h₁
  refine ⟨by rw [hdel], by rw [hdel], ?_, ?_, ?_, ?_⟩
  · rw [hdel, hsplit]
    simp only [List.length_append, List.length_cons]
    omega
  · intro q hq
    rw [hdel]
    exact List.mem_append.mpr (Or.inr hq)
  · rcases hdup with ⟨q, hq, hmq⟩
    refine ⟨q, ?_, hmq⟩
    rw [hdel]
    exact List.mem_append.mpr (Or.inr hq)
  · rw [hdel]
    exact cascade_removes_key ip iN s.likes

/-- C9 witness: deleting key ("p","n") from a catalog holding two records
with that key removes only the first; the second remains and "ana"'s
matching like is gone. -/
theorem deletePublicacion_duplicate_keys_witness :
    (deletePublicacion dupState "p" "n" true).1 = .deleted ∧
    (deletePublicacion dupState "p" "n" true).2.publicaciones =
      [⟨"p", "n", "e", "bob", 1⟩] ∧
    (∃ q ∈ (deletePublicacion dupState "p" "n" true).2.publicaciones,
      matchesKey "p" "n" q = true) := by
  have h := deletePublicacion_duplicate_keys dupState "p" "n" []
    [⟨"p", "n", "e", "bob", 1⟩] ⟨"p", "n", "d", "ana", 0⟩ rfl
    (by decide) (by decide) (by decide)
  exact ⟨h.1, h.2.1, h.2.2.2.2.1⟩
